import Mathlib

/-!
Shallow embedding of the DOM property/attribute translation and
markup-generation subsystem, translated from
`src/renderers/dom/shared/DOMProperty.js` and
`src/renderers/dom/shared/DOMMarkupOperations.js`.

JavaScript runtime values are modelled by `JSValue`; the mutable module-level
registry `DOMProperty.properties` and the two attribute-name caches of
`DOMMarkupOperations` are passed explicitly as state.  The `invariant` calls
of `injectDOMPropertyConfig` (which throw on violation) are modelled by an
`Except` result.  The escaping collaborator `quoteAttributeValueForBrowser`
is external to the subsystem and is taken as a function argument.
-/

/-- Model of a JavaScript runtime value as classified by the `typeof`
switches in the source: `null`, `undefined`, booleans, numbers (modelled as
integers), strings, non-null objects, functions and symbols. -/
inductive JSValue where
  | null
  | undef
  | bool (b : Bool)
  | num (n : Int)
  | str (s : String)
  | obj
  | fn
  | sym
deriving DecidableEq

/-- JavaScript falsiness for the values of the model: `null`, `undefined`,
`false`, `0` and the empty string are falsy. -/
def isFalsy : JSValue → Bool
  | JSValue.null => true
  | JSValue.undef => true
  | JSValue.bool b => !b
  | JSValue.num n => n == 0
  | JSValue.str s => s == ""
  | _ => false

/-- `name[i]` on a JavaScript string: the character at index `i`, or absent
when the index is out of range. -/
def charAt (s : String) (i : Nat) : Option Char :=
  s.data.get? i

/-- Model of `String.prototype.toLowerCase` as used by the source (ASCII
names): lowercase every character. -/
def toLowerJS (s : String) : String :=
  String.mk (s.data.map Char.toLower)

/-- `RESERVED_PROPS` of DOMProperty.js (lines 18-27). -/
def RESERVED_PROPS : List String :=
  ["children", "dangerouslySetInnerHTML", "autoFocus", "defaultValue",
   "defaultChecked", "innerHTML", "suppressContentEditableWarning", "style"]

/-- `checkMask` of DOMProperty.js (lines 29-31). -/
def checkMask (value bitmask : Nat) : Bool :=
  (value &&& bitmask) == bitmask

/-- `DOMPropertyInjection.MUST_USE_PROPERTY` (0x1). -/
def MUST_USE_PROPERTY : Nat := 0x1

/-- `DOMPropertyInjection.HAS_BOOLEAN_VALUE` (0x4). -/
def HAS_BOOLEAN_VALUE : Nat := 0x4

/-- `DOMPropertyInjection.HAS_NUMERIC_VALUE` (0x8). -/
def HAS_NUMERIC_VALUE : Nat := 0x8

/-- `DOMPropertyInjection.HAS_POSITIVE_NUMERIC_VALUE` (0x10 | 0x8). -/
def HAS_POSITIVE_NUMERIC_VALUE : Nat := 0x10 ||| 0x8

/-- `DOMPropertyInjection.HAS_OVERLOADED_BOOLEAN_VALUE` (0x20). -/
def HAS_OVERLOADED_BOOLEAN_VALUE : Nat := 0x20

/-- `DOMPropertyInjection.HAS_STRING_BOOLEAN_VALUE` (0x40). -/
def HAS_STRING_BOOLEAN_VALUE : Nat := 0x40

/-- The descriptor stored in `DOMProperty.properties` for each injected
property name (DOMProperty.js lines 101-117). -/
structure PropertyInfo where
  mustUseProperty : Bool
  hasBooleanValue : Bool
  hasNumericValue : Bool
  hasPositiveNumericValue : Bool
  hasOverloadedBooleanValue : Bool
  hasStringBooleanValue : Bool
deriving DecidableEq

/-- The `propertyInfo` object built from a bitmask inside
`injectDOMPropertyConfig` (DOMProperty.js lines 101-117). -/
def decodePropConfig (propConfig : Nat) : PropertyInfo :=
  { mustUseProperty := checkMask propConfig MUST_USE_PROPERTY
    hasBooleanValue := checkMask propConfig HAS_BOOLEAN_VALUE
    hasNumericValue := checkMask propConfig HAS_NUMERIC_VALUE
    hasPositiveNumericValue := checkMask propConfig HAS_POSITIVE_NUMERIC_VALUE
    hasOverloadedBooleanValue := checkMask propConfig HAS_OVERLOADED_BOOLEAN_VALUE
    hasStringBooleanValue := checkMask propConfig HAS_STRING_BOOLEAN_VALUE }

/-- The sum `hasBooleanValue + hasNumericValue + hasOverloadedBooleanValue`
tested by the second `invariant` of `injectDOMPropertyConfig`
(DOMProperty.js lines 118-126); JavaScript coerces the booleans to 0/1. -/
def modeSum (info : PropertyInfo) : Nat :=
  info.hasBooleanValue.toNat + info.hasNumericValue.toNat +
    info.hasOverloadedBooleanValue.toNat

/-- `DOMProperty.properties`: the registry mapping property names to
descriptors, modelled as an association list (JavaScript object with
`hasOwnProperty` membership). -/
abbrev Registry := List (String × PropertyInfo)

/-- `DOMProperty.properties.hasOwnProperty(name)`. -/
def hasKey (props : Registry) (name : String) : Bool :=
  (props.lookup name).isSome

/-- The two `invariant` failures of `injectDOMPropertyConfig`: injecting an
already-registered name, and a bitmask combining more than one of the
boolean / numeric / overloaded-boolean modes.  Each carries the property
name interpolated into the invariant message. -/
inductive InjectError where
  | duplicateProperty (name : String)
  | conflictingValueModes (name : String)
deriving DecidableEq

/-- `DOMPropertyInjection.injectDOMPropertyConfig` (DOMProperty.js lines
85-134).  The `Properties` object of the config is an association list in
insertion order (`for propName in Properties` enumerates keys in that
order); the growing module registry is passed and returned explicitly, and
a thrown `invariant` becomes an `Except.error`. -/
def injectDOMPropertyConfig (props : Registry) :
    List (String × Nat) → Except InjectError Registry
  | [] => Except.ok props
  | (propName, propConfig) :: rest =>
    if hasKey props propName then
      Except.error (InjectError.duplicateProperty propName)
    else
      let propertyInfo := decodePropConfig propConfig
      if modeSum propertyInfo ≤ 1 then
        injectDOMPropertyConfig ((propName, propertyInfo) :: props) rest
      else
        Except.error (InjectError.conflictingValueModes propName)

/-- The camelisation applied to each built-in SVG attribute name:
`svgAttributeName.replace(/[\-\:]([a-z])/g, token => token[1].toUpperCase())`
(DOMProperty.js lines 149-150, 259).  A hyphen or colon followed by an
ASCII lowercase letter is replaced by that letter uppercased; matching
resumes after the replaced pair. -/
def camelizeChars : List Char → List Char
  | [] => []
  | [c] => [c]
  | c :: d :: rest =>
    if (c = '-' ∨ c = ':') ∧ d.isLower then
      d.toUpper :: camelizeChars rest
    else
      c :: camelizeChars (d :: rest)

/-- String form of `camelizeChars`. -/
def camelize (s : String) : String :=
  String.mk (camelizeChars s.data)

/-- The literal SVG attribute list of DOMProperty.js (lines 174-257). -/
def svgAttributeList : List String :=
  ["accent-height", "alignment-baseline", "arabic-form", "baseline-shift",
   "cap-height", "clip-path", "clip-rule", "color-interpolation",
   "color-interpolation-filters", "color-profile", "color-rendering",
   "dominant-baseline", "enable-background", "fill-opacity", "fill-rule",
   "flood-color", "flood-opacity", "font-family", "font-size",
   "font-size-adjust", "font-stretch", "font-style", "font-variant",
   "font-weight", "glyph-name", "glyph-orientation-horizontal",
   "glyph-orientation-vertical", "horiz-adv-x", "horiz-origin-x",
   "image-rendering", "letter-spacing", "lighting-color", "marker-end",
   "marker-mid", "marker-start", "overline-position", "overline-thickness",
   "paint-order", "panose-1", "pointer-events", "rendering-intent",
   "shape-rendering", "stop-color", "stop-opacity", "strikethrough-position",
   "strikethrough-thickness", "stroke-dasharray", "stroke-dashoffset",
   "stroke-linecap", "stroke-linejoin", "stroke-miterlimit", "stroke-opacity",
   "stroke-width", "text-anchor", "text-decoration", "text-rendering",
   "underline-position", "underline-thickness", "unicode-bidi",
   "unicode-range", "units-per-em", "v-alphabetic", "v-hanging",
   "v-ideographic", "v-mathematical", "vector-effect", "vert-adv-y",
   "vert-origin-x", "vert-origin-y", "word-spacing", "writing-mode",
   "x-height", "xlink:actuate", "xlink:arcrole", "xlink:href", "xlink:role",
   "xlink:show", "xlink:title", "xlink:type", "xml:base", "xmlns:xlink",
   "xml:lang", "xml:space"]

/-- `attributeNames` after module initialisation: the four irregular HTML
mappings (DOMProperty.js lines 142-147) extended by
`attributeNames[reactName] = svgAttributeName` for each built-in SVG
attribute (line 260). -/
def attributeNames : List (String × String) :=
  [("acceptCharset", "accept-charset"), ("className", "class"),
   ("htmlFor", "for"), ("httpEquiv", "http-equiv")]
  ++ svgAttributeList.map (fun a => (camelize a, a))

/-- `svgConfig.Properties` after the `forEach` loop has added a zero-mask
entry for each camelised SVG attribute (DOMProperty.js lines 153-159,
262-264), in object-key insertion order. -/
def svgConfigProperties : List (String × Nat) :=
  [("autoReverse", HAS_STRING_BOOLEAN_VALUE),
   ("externalResourcesRequired", HAS_STRING_BOOLEAN_VALUE),
   ("preserveAlpha", HAS_STRING_BOOLEAN_VALUE)]
  ++ svgAttributeList.map (fun a => (camelize a, 0))

/-- `DOMProperty.properties` right after module initialisation: the result
of `DOMProperty.injection.injectDOMPropertyConfig(svgConfig)` applied to
the empty registry (DOMProperty.js line 415). -/
def initialProperties : Registry :=
  (injectDOMPropertyConfig [] svgConfigProperties).toOption.getD []

/-- `DOMProperty.ID_ATTRIBUTE_NAME`. -/
def ID_ATTRIBUTE_NAME : String := "data-reactid"

/-- `DOMProperty.ROOT_ATTRIBUTE_NAME`. -/
def ROOT_ATTRIBUTE_NAME : String := "data-reactroot"

/-- `DOMProperty.isReservedProp` (DOMProperty.js lines 406-408). -/
def isReservedProp (name : String) : Bool :=
  RESERVED_PROPS.contains name

/-- `DOMProperty.getAttributeName` (DOMProperty.js lines 340-344). -/
def getAttributeName (propName : String) : String :=
  match attributeNames.lookup propName with
  | some attr => attr
  | none => toLowerJS propName

/-- `DOMProperty.getAttributeNamespace` (DOMProperty.js lines 346-363). -/
def getAttributeNamespace (propName : String) : Option String :=
  match propName with
  | "xmlBase" => some "http://www.w3.org/XML/1998/namespace"
  | "xmlLang" => some "http://www.w3.org/XML/1998/namespace"
  | "xmlSpace" => some "http://www.w3.org/XML/1998/namespace"
  | "xlinkActuate" => some "http://www.w3.org/1999/xlink"
  | "xlinkArcrole" => some "http://www.w3.org/1999/xlink"
  | "xlinkHref" => some "http://www.w3.org/1999/xlink"
  | "xlinkRole" => some "http://www.w3.org/1999/xlink"
  | "xlinkShow" => some "http://www.w3.org/1999/xlink"
  | "xlinkTitle" => some "http://www.w3.org/1999/xlink"
  | "xlinkType" => some "http://www.w3.org/1999/xlink"
  | _ => none

/-- `DOMProperty.getPropertyInfo` (DOMProperty.js lines 375-379), over an
explicit registry state. -/
def getPropertyInfo (props : Registry) (name : String) : Option PropertyInfo :=
  props.lookup name

/-- `DOMProperty.shouldAttributeAcceptBooleanValue` (DOMProperty.js lines
381-395). -/
def shouldAttributeAcceptBooleanValue (props : Registry) (name : String) : Bool :=
  if isReservedProp name then
    true
  else
    match getPropertyInfo props name with
    | some propertyInfo =>
      propertyInfo.hasBooleanValue || propertyInfo.hasStringBooleanValue ||
        propertyInfo.hasOverloadedBooleanValue
    | none =>
      let lowered5 := String.mk ((toLowerJS name).data.take 5)
      lowered5 == "data-" || lowered5 == "aria-"

/-- `DOMProperty.shouldSetAttribute` (DOMProperty.js lines 313-338). -/
def shouldSetAttribute (props : Registry) (name : String) (value : JSValue) : Bool :=
  if isReservedProp name then
    false
  else if (charAt name 0 == some 'o' || charAt name 0 == some 'O') &&
          (charAt name 1 == some 'n' || charAt name 1 == some 'N') then
    false
  else
    match value with
    | JSValue.null => true
    | JSValue.bool _ => shouldAttributeAcceptBooleanValue props name
    | JSValue.undef => true
    | JSValue.num _ => true
    | JSValue.str _ => true
    | JSValue.obj => true
    | JSValue.fn => false
    | JSValue.sym => false

/-- Modelled from the spec: `DOMProperty.shouldIgnoreValue` is called by
`createMarkupForProperty` (DOMMarkupOperations.js line 82) but its
definition is not among the source files.  Spec section 4.3: the value is
ignored when it is null/absent, or when the descriptor has boolean/numeric
semantics and the value is falsy, or when it has overloaded-boolean
semantics and the value is strictly `false`. -/
def shouldIgnoreValue (props : Registry) (name : String) (value : JSValue) : Bool :=
  match value with
  | JSValue.null => true
  | JSValue.undef => true
  | _ =>
    match getPropertyInfo props name with
    | some propertyInfo =>
      ((propertyInfo.hasBooleanValue || propertyInfo.hasNumericValue) &&
        isFalsy value) ||
      (propertyInfo.hasOverloadedBooleanValue && value == JSValue.bool false)
    | none => false

/-- The value-type classification returned by `getExpectedValueType`. -/
inductive ExpectedValueType where
  | boolean
  | overloadedBoolean
  | generic
deriving DecidableEq

/-- Modelled from the spec: `DOMProperty.getExpectedValueType` is called by
`createMarkupForProperty` (DOMMarkupOperations.js line 87) but its
definition is not among the source files.  Spec section 4.3: "boolean" if
the descriptor has `hasBooleanValue` or `hasStringBooleanValue`,
"overloadedBoolean" if it has `hasOverloadedBooleanValue`, otherwise a
generic value-type requiring literal serialisation. -/
def getExpectedValueType (props : Registry) (name : String) : ExpectedValueType :=
  match getPropertyInfo props name with
  | some propertyInfo =>
    if propertyInfo.hasBooleanValue || propertyInfo.hasStringBooleanValue then
      ExpectedValueType.boolean
    else if propertyInfo.hasOverloadedBooleanValue then
      ExpectedValueType.overloadedBoolean
    else
      ExpectedValueType.generic
  | none => ExpectedValueType.generic

/-- Character class `ATTRIBUTE_NAME_START_CHAR` of DOMProperty.js (lines
138-139). -/
def isNameStartChar (c : Char) : Bool :=
  c == ':' || ('A' ≤ c && c ≤ 'Z') || c == '_' || ('a' ≤ c && c ≤ 'z') ||
  (0xC0 ≤ c.val && c.val ≤ 0xD6) || (0xD8 ≤ c.val && c.val ≤ 0xF6) ||
  (0xF8 ≤ c.val && c.val ≤ 0x2FF) || (0x370 ≤ c.val && c.val ≤ 0x37D) ||
  (0x37F ≤ c.val && c.val ≤ 0x1FFF) || (0x200C ≤ c.val && c.val ≤ 0x200D) ||
  (0x2070 ≤ c.val && c.val ≤ 0x218F) || (0x2C00 ≤ c.val && c.val ≤ 0x2FEF) ||
  (0x3001 ≤ c.val && c.val ≤ 0xD7FF) || (0xF900 ≤ c.val && c.val ≤ 0xFDCF) ||
  (0xFDF0 ≤ c.val && c.val ≤ 0xFFFD)

/-- Character class `ATTRIBUTE_NAME_CHAR` of DOMProperty.js (lines
285-286): the start class plus hyphen, dot, digits and combining ranges. -/
def isNameChar (c : Char) : Bool :=
  isNameStartChar c || c == '-' || c == '.' || ('0' ≤ c && c ≤ '9') ||
  c.val == 0xB7 || (0x300 ≤ c.val && c.val ≤ 0x36F) ||
  (0x203F ≤ c.val && c.val ≤ 0x2040)

/-- `VALID_ATTRIBUTE_NAME_REGEX.test(name)` (DOMMarkupOperations.js lines
24-30): `^[START][CHAR]*$`. -/
def testValidAttributeNameRegex (s : String) : Bool :=
  match s.data with
  | [] => false
  | c :: rest => isNameStartChar c && rest.all isNameChar

/-- The two module-level caches of DOMMarkupOperations.js (lines 31-32),
modelled as lists of the object keys. -/
structure NameCaches where
  validated : List String
  illegal : List String
deriving DecidableEq

/-- `isAttributeNameSafe` (DOMMarkupOperations.js lines 33-49): verdict
plus the updated caches. -/
def isAttributeNameSafe (caches : NameCaches) (attributeName : String) :
    Bool × NameCaches :=
  if caches.validated.contains attributeName then
    (true, caches)
  else if caches.illegal.contains attributeName then
    (false, caches)
  else if testValidAttributeNameRegex attributeName then
    (true, { caches with validated := attributeName :: caches.validated })
  else
    (false, { caches with illegal := attributeName :: caches.illegal })

/-- The call to `isAttributeNameSafe` reaches the regular-expression test
(line 40) exactly when the name is in neither cache. -/
def regexTestRuns (caches : NameCaches) (attributeName : String) : Bool :=
  !(caches.validated.contains attributeName ||
    caches.illegal.contains attributeName)

/-- Cache well-formedness: every reachable cache state stores in
`validated` only names accepted by the regular expression and in `illegal`
only names rejected by it. -/
def CachesWF (caches : NameCaches) : Prop :=
  (∀ n, caches.validated.contains n = true →
    testValidAttributeNameRegex n = true) ∧
  (∀ n, caches.illegal.contains n = true →
    testValidAttributeNameRegex n = false)

/-- `DOMMarkupOperations.createMarkupForID` (lines 61-65); the escaping
collaborator is the function argument. -/
def createMarkupForID (quote : JSValue → String) (id : JSValue) : String :=
  ID_ATTRIBUTE_NAME ++ "=" ++ quote id

/-- `DOMMarkupOperations.createMarkupForRoot` (lines 67-69). -/
def createMarkupForRoot : String :=
  ROOT_ATTRIBUTE_NAME ++ "=\"\""

/-- `DOMMarkupOperations.createMarkupForProperty` (lines 78-96); `null`
becomes `none`. -/
def createMarkupForProperty (quote : JSValue → String) (props : Registry)
    (name : String) (value : JSValue) : Option String :=
  if !shouldSetAttribute props name value || shouldIgnoreValue props name value then
    none
  else
    let attributeName := getAttributeName name
    let expectedType := getExpectedValueType props name
    if expectedType == ExpectedValueType.boolean ||
       (expectedType == ExpectedValueType.overloadedBoolean &&
         value == JSValue.bool true) then
      some (attributeName ++ "=\"\"")
    else
      some (attributeName ++ "=" ++ quote value)

/-- `DOMMarkupOperations.createMarkupForCustomAttribute` (lines 105-110);
`value == null` is JavaScript loose equality, true for both `null` and
`undefined`.  Returns the markup together with the updated caches of the
embedded `isAttributeNameSafe` call. -/
def createMarkupForCustomAttribute (quote : JSValue → String)
    (caches : NameCaches) (name : String) (value : JSValue) :
    String × NameCaches :=
  let r := isAttributeNameSafe caches name
  if !r.1 || value == JSValue.null || value == JSValue.undef then
    ("", r.2)
  else
    (name ++ "=" ++ quote value, r.2)

/-- A concrete instance of the escaping collaborator, used only to witness
theorems that are universally quantified over it: wrap the rendered value
in double quotes. -/
def quoteModel (value : JSValue) : String :=
  match value with
  | JSValue.str s => "\"" ++ s ++ "\""
  | JSValue.num n => "\"" ++ toString n ++ "\""
  | JSValue.bool b => "\"" ++ toString b ++ "\""
  | JSValue.null => "\"null\""
  | JSValue.undef => "\"undefined\""
  | JSValue.obj => "\"[object Object]\""
  | JSValue.fn => "\"function\""
  | JSValue.sym => "\"symbol\""

/-- The descriptor decoded from `HAS_STRING_BOOLEAN_VALUE`: only
`hasStringBooleanValue` is set. -/
def stringBooleanInfo : PropertyInfo :=
  { mustUseProperty := false, hasBooleanValue := false,
    hasNumericValue := false, hasPositiveNumericValue := false,
    hasOverloadedBooleanValue := false, hasStringBooleanValue := true }

/-- The descriptor decoded from the zero bitmask: all six facets false. -/
def plainInfo : PropertyInfo :=
  { mustUseProperty := false, hasBooleanValue := false,
    hasNumericValue := false, hasPositiveNumericValue := false,
    hasOverloadedBooleanValue := false, hasStringBooleanValue := false }

/-! ### Helper lemmas -/

theorem bool_eq_false {b : Bool} (h : ¬b = true) : b = false := by
  cases b
  · rfl
  · exact absurd rfl h

theorem hasKey_cons (k : String) (info : PropertyInfo) (props : Registry)
    (n : String) :
    hasKey ((k, info) :: props) n = (n == k || hasKey props n) := by
  by_cases h : n = k
  · subst h
    simp [hasKey, List.lookup_cons]
  · simp [hasKey, List.lookup_cons, beq_false_of_ne h, h]

theorem inject_ok_of_fresh (config : List (String × Nat)) :
    ∀ props : Registry,
    (config.map Prod.fst).Nodup →
    (∀ p ∈ config, hasKey props p.1 = false) →
    (∀ p ∈ config, modeSum (decodePropConfig p.2) ≤ 1) →
    ∃ props2, injectDOMPropertyConfig props config = Except.ok props2 ∧
      ∀ n, (hasKey props2 n = true ↔
        (hasKey props n = true ∨ n ∈ config.map Prod.fst)) := by
  induction config with
  | nil =>
    intro props _ _ _
    exact ⟨props, rfl, by simp⟩
  | cons p rest ih =>
    intro props hnodup hfresh hvalid
    obtain ⟨propName, propConfig⟩ := p
    have hf : hasKey props propName = false :=
      hfresh (propName, propConfig) (List.mem_cons_self _ _)
    have hv : modeSum (decodePropConfig propConfig) ≤ 1 :=
      hvalid (propName, propConfig) (List.mem_cons_self _ _)
    rw [List.map_cons] at hnodup
    obtain ⟨hnotmem, hnodup'⟩ := List.nodup_cons.mp hnodup
    have hfresh' : ∀ p ∈ rest,
        hasKey ((propName, decodePropConfig propConfig) :: props) p.1 = false := by
      intro q hq
      rw [hasKey_cons]
      have h1 : hasKey props q.1 = false := hfresh q (List.mem_cons_of_mem _ hq)
      have h2 : q.1 ≠ propName := by
        intro hEq
        apply hnotmem
        rw [← hEq]
        exact List.mem_map.mpr ⟨q, hq, rfl⟩
      simp [h1, beq_false_of_ne h2]
    obtain ⟨props2, hok, hchar⟩ :=
      ih ((propName, decodePropConfig propConfig) :: props) hnodup' hfresh'
        (fun q hq => hvalid q (List.mem_cons_of_mem _ hq))
    refine ⟨props2, ?_, ?_⟩
    · simp only [injectDOMPropertyConfig, hf, Bool.false_eq_true, if_false, hv,
        if_pos]
      exact hok
    · intro n
      rw [hchar n, hasKey_cons, List.map_cons]
      by_cases hn : n = propName
      · subst hn
        simp
      · simp [beq_false_of_ne hn, hn]

theorem inject_error_of_dup (config : List (String × Nat)) :
    ∀ (props : Registry) (n : String), n ∈ config.map Prod.fst →
    hasKey props n = true →
    ∃ e, injectDOMPropertyConfig props config = Except.error e := by
  induction config with
  | nil =>
    intro props n hmem _
    simp at hmem
  | cons p rest ih =>
    intro props n hmem hkey
    obtain ⟨k, m⟩ := p
    by_cases hk : hasKey props k = true
    · exact ⟨InjectError.duplicateProperty k,
        by simp [injectDOMPropertyConfig, hk]⟩
    · have hkf : hasKey props k = false := bool_eq_false hk
      have hnk : n ≠ k := fun hEq => hk (hEq ▸ hkey)
      have hmem' : n ∈ rest.map Prod.fst := by
        rw [List.map_cons] at hmem
        rcases List.mem_cons.mp hmem with h | h
        · exact absurd h hnk
        · exact h
      by_cases hv : modeSum (decodePropConfig m) ≤ 1
      · have hkey' : hasKey ((k, decodePropConfig m) :: props) n = true := by
          rw [hasKey_cons]
          simp [hkey]
        obtain ⟨e, he⟩ := ih ((k, decodePropConfig m) :: props) n hmem' hkey'
        refine ⟨e, ?_⟩
        simp only [injectDOMPropertyConfig, hkf, Bool.false_eq_true, if_false,
          hv, if_pos]
        exact he
      · exact ⟨InjectError.conflictingValueModes k,
          by simp [injectDOMPropertyConfig, hkf, hv]⟩

theorem inject_error_duplicate_first (pre : List (String × Nat)) :
    ∀ (props : Registry) (n : String) (m : Nat) (rest : List (String × Nat)),
    (pre.map Prod.fst).Nodup →
    (∀ p ∈ pre, hasKey props p.1 = false ∧ modeSum (decodePropConfig p.2) ≤ 1) →
    hasKey props n = true →
    injectDOMPropertyConfig props (pre ++ (n, m) :: rest) =
      Except.error (InjectError.duplicateProperty n) := by
  induction pre with
  | nil =>
    intro props n m rest _ _ hkey
    simp [injectDOMPropertyConfig, hkey]
  | cons p pre ih =>
    intro props n m rest hnodup hpre hkey
    obtain ⟨k, mk⟩ := p
    obtain ⟨hkf, hkv⟩ := hpre (k, mk) (List.mem_cons_self _ _)
    rw [List.map_cons] at hnodup
    obtain ⟨hnotmem, hnodup'⟩ := List.nodup_cons.mp hnodup
    have hnk : n ≠ k := by
      intro hEq
      rw [hEq, hkf] at hkey
      cases hkey
    have hpre' : ∀ p ∈ pre,
        hasKey ((k, decodePropConfig mk) :: props) p.1 = false ∧
          modeSum (decodePropConfig p.2) ≤ 1 := by
      intro q hq
      refine ⟨?_, (hpre q (List.mem_cons_of_mem _ hq)).2⟩
      rw [hasKey_cons]
      have h2 : q.1 ≠ k := by
        intro hEq
        apply hnotmem
        rw [← hEq]
        exact List.mem_map.mpr ⟨q, hq, rfl⟩
      simp [(hpre q (List.mem_cons_of_mem _ hq)).1, beq_false_of_ne h2]
    have hkey' : hasKey ((k, decodePropConfig mk) :: props) n = true := by
      rw [hasKey_cons]
      simp [hkey]
    have htail := ih ((k, decodePropConfig mk) :: props) n m rest hnodup' hpre' hkey'
    rw [List.cons_append]
    simp only [injectDOMPropertyConfig, hkf, Bool.false_eq_true, if_false,
      hkv, if_pos]
    exact htail

theorem inject_error_of_mixed (config : List (String × Nat)) :
    ∀ (props : Registry) (p : String × Nat), p ∈ config →
    2 ≤ modeSum (decodePropConfig p.2) →
    ∃ e, injectDOMPropertyConfig props config = Except.error e := by
  induction config with
  | nil =>
    intro props p hmem _
    simp at hmem
  | cons q rest ih =>
    intro props p hmem hmix
    obtain ⟨k, m⟩ := q
    by_cases hk : hasKey props k = true
    · exact ⟨InjectError.duplicateProperty k,
        by simp [injectDOMPropertyConfig, hk]⟩
    · have hkf : hasKey props k = false := bool_eq_false hk
      by_cases hv : modeSum (decodePropConfig m) ≤ 1
      · have hp : p ∈ rest := by
          rcases List.mem_cons.mp hmem with h | h
          · exfalso
            rw [h] at hmix
            simp only at hmix
            omega
          · exact h
        obtain ⟨e, he⟩ := ih ((k, decodePropConfig m) :: props) p hp hmix
        refine ⟨e, ?_⟩
        simp only [injectDOMPropertyConfig, hkf, Bool.false_eq_true, if_false,
          hv, if_pos]
        exact he
      · exact ⟨InjectError.conflictingValueModes k,
          by simp [injectDOMPropertyConfig, hkf, hv]⟩

theorem inject_ok_modes (config : List (String × Nat)) :
    ∀ props props2 : Registry,
    injectDOMPropertyConfig props config = Except.ok props2 →
    (∀ q ∈ props, modeSum q.2 ≤ 1) →
    ∀ q ∈ props2, modeSum q.2 ≤ 1 := by
  induction config with
  | nil =>
    intro props props2 hok hall
    simp only [injectDOMPropertyConfig, Except.ok.injEq] at hok
    exact hok ▸ hall
  | cons p rest ih =>
    intro props props2 hok hall
    obtain ⟨k, m⟩ := p
    by_cases hk : hasKey props k = true
    · simp [injectDOMPropertyConfig, hk] at hok
    · have hkf : hasKey props k = false := bool_eq_false hk
      by_cases hv : modeSum (decodePropConfig m) ≤ 1
      · have hok' : injectDOMPropertyConfig ((k, decodePropConfig m) :: props)
            rest = Except.ok props2 := by
          simpa only [injectDOMPropertyConfig, hkf, Bool.false_eq_true,
            if_false, hv, if_pos] using hok
        refine ih _ _ hok' ?_
        intro q hq
        rcases List.mem_cons.mp hq with h | h
        · rw [h]
          exact hv
        · exact hall q h
      · simp [injectDOMPropertyConfig, hkf, hv] at hok

theorem isAttributeNameSafe_cases (caches : NameCaches) (name : String) :
    (caches.validated.contains name = true ∧
      isAttributeNameSafe caches name = (true, caches)) ∨
    (caches.validated.contains name = false ∧
      caches.illegal.contains name = true ∧
      isAttributeNameSafe caches name = (false, caches)) ∨
    (caches.validated.contains name = false ∧
      caches.illegal.contains name = false ∧
      isAttributeNameSafe caches name =
        (testValidAttributeNameRegex name,
          if testValidAttributeNameRegex name then
            { caches with validated := name :: caches.validated }
          else
            { caches with illegal := name :: caches.illegal })) := by
  cases hv : caches.validated.contains name
  · cases hi : caches.illegal.contains name
    · right
      right
      refine ⟨rfl, rfl, ?_⟩
      cases ht : testValidAttributeNameRegex name <;>
        simp only [isAttributeNameSafe, hv, hi, ht, Bool.false_eq_true,
          if_false, eq_self_iff_true, ite_true]
    · right
      left
      refine ⟨rfl, rfl, ?_⟩
      simp only [isAttributeNameSafe, hv, hi, Bool.false_eq_true, if_false,
        eq_self_iff_true, ite_true]
  · left
    refine ⟨rfl, ?_⟩
    simp only [isAttributeNameSafe, hv, eq_self_iff_true, ite_true]

theorem isAttributeNameSafe_verdict (caches : NameCaches) (name : String)
    (h : CachesWF caches) :
    (isAttributeNameSafe caches name).1 = testValidAttributeNameRegex name := by
  rcases isAttributeNameSafe_cases caches name with
    ⟨hv, heq⟩ | ⟨hv, hi, heq⟩ | ⟨hv, hi, heq⟩
  · rw [heq]
    exact (h.1 name hv).symm
  · rw [heq]
    exact (h.2 name hi).symm
  · rw [heq]

/-! ### Claim theorems -/

/-- C5: `getAttributeName` is a pure total function: identical input always
yields identical output; an irregular mapping in `attributeNames` takes
precedence over lowercasing, in particular `className ↦ class`,
`htmlFor ↦ for`, `httpEquiv ↦ http-equiv`, `acceptCharset ↦ accept-charset`;
and every name without an irregular mapping is lowercased. -/
theorem getAttributeName_spec :
    (∀ s : String, getAttributeName s = getAttributeName s) ∧
    (∀ (s attr : String), attributeNames.lookup s = some attr →
      getAttributeName s = attr) ∧
    getAttributeName "className" = "class" ∧
    getAttributeName "htmlFor" = "for" ∧
    getAttributeName "httpEquiv" = "http-equiv" ∧
    getAttributeName "acceptCharset" = "accept-charset" ∧
    (∀ s : String, attributeNames.lookup s = none →
      getAttributeName s = toLowerJS s) := by
  refine ⟨fun _ => rfl, ?_, by decide, by decide, by decide, by decide, ?_⟩
  · intro s attr h
    unfold getAttributeName
    rw [h]
  · intro s h
    unfold getAttributeName
    rw [h]

/-- Witness for C5 at the concrete inputs `unknownProp` (no irregular
mapping, so lowercased) and `xlinkHref` (irregular mapping). -/
theorem getAttributeName_spec_witness :
    getAttributeName "unknownProp" = "unknownprop" ∧
    getAttributeName "xlinkHref" = "xlink:href" :=
  ⟨Eq.trans
      (getAttributeName_spec.2.2.2.2.2.2 "unknownProp" (by decide))
      (by decide),
    getAttributeName_spec.2.1 "xlinkHref" "xlink:href" (by decide)⟩

/-- C6: `getAttributeNamespace` returns the XML namespace URI exactly for
`xmlBase`, `xmlLang`, `xmlSpace`, the XLink namespace URI exactly for the
seven `xlink*` names, and the absent sentinel for every other input. -/
theorem getAttributeNamespace_spec :
    getAttributeNamespace "xmlBase" =
      some "http://www.w3.org/XML/1998/namespace" ∧
    getAttributeNamespace "xmlLang" =
      some "http://www.w3.org/XML/1998/namespace" ∧
    getAttributeNamespace "xmlSpace" =
      some "http://www.w3.org/XML/1998/namespace" ∧
    getAttributeNamespace "xlinkActuate" = some "http://www.w3.org/1999/xlink" ∧
    getAttributeNamespace "xlinkArcrole" = some "http://www.w3.org/1999/xlink" ∧
    getAttributeNamespace "xlinkHref" = some "http://www.w3.org/1999/xlink" ∧
    getAttributeNamespace "xlinkRole" = some "http://www.w3.org/1999/xlink" ∧
    getAttributeNamespace "xlinkShow" = some "http://www.w3.org/1999/xlink" ∧
    getAttributeNamespace "xlinkTitle" = some "http://www.w3.org/1999/xlink" ∧
    getAttributeNamespace "xlinkType" = some "http://www.w3.org/1999/xlink" ∧
    (∀ s : String,
      s ∉ (["xmlBase", "xmlLang", "xmlSpace", "xlinkActuate", "xlinkArcrole",
        "xlinkHref", "xlinkRole", "xlinkShow", "xlinkTitle",
        "xlinkType"] : List String) →
      getAttributeNamespace s = none) := by
  refine ⟨rfl, rfl, rfl, rfl, rfl, rfl, rfl, rfl, rfl, rfl, ?_⟩
  intro s hs
  unfold getAttributeNamespace
  split <;> simp_all

/-- Witness for C6 at the concrete input `id`, which is outside the closed
set of namespaced names. -/
theorem getAttributeNamespace_spec_witness :
    getAttributeNamespace "id" = none :=
  getAttributeNamespace_spec.2.2.2.2.2.2.2.2.2.2 "id" (by decide)

/-- C8: `shouldSetAttribute` is false for every reserved prop name
regardless of value, false whenever the first two characters of the name
are o/O followed by n/N regardless of value, and false whenever the value
is a function or a symbol. -/
theorem shouldSetAttribute_false_cases (props : Registry) (name : String)
    (value : JSValue) :
    (isReservedProp name = true → shouldSetAttribute props name value = false) ∧
    ((charAt name 0 = some 'o' ∨ charAt name 0 = some 'O') →
      (charAt name 1 = some 'n' ∨ charAt name 1 = some 'N') →
      shouldSetAttribute props name value = false) ∧
    (value = JSValue.fn ∨ value = JSValue.sym →
      shouldSetAttribute props name value = false) := by
  refine ⟨?_, ?_, ?_⟩
  · intro h
    simp [shouldSetAttribute, h]
  · intro h0 h1
    by_cases hr : isReservedProp name = true
    · simp [shouldSetAttribute, hr]
    · have hr' : isReservedProp name = false := bool_eq_false hr
      have hc : ((charAt name 0 == some 'o' || charAt name 0 == some 'O') &&
          (charAt name 1 == some 'n' || charAt name 1 == some 'N')) = true := by
        rcases h0 with h | h <;> rcases h1 with h2 | h2 <;> simp [h, h2]
      simp [shouldSetAttribute, hr', hc]
  · rintro (rfl | rfl) <;>
      simp [shouldSetAttribute, ite_self]

/-- Witness for C8 at the concrete inputs `onClick` with a function value
and the reserved name `style`. -/
theorem shouldSetAttribute_false_cases_witness :
    shouldSetAttribute [] "onClick" JSValue.fn = false ∧
    shouldSetAttribute [] "style" (JSValue.str "x") = false :=
  ⟨(shouldSetAttribute_false_cases [] "onClick" JSValue.fn).2.1
      (Or.inl (by decide)) (Or.inl (by decide)),
    (shouldSetAttribute_false_cases [] "style" (JSValue.str "x")).1 (by decide)⟩

/-- C1: `createMarkupForProperty` returns the absent sentinel exactly when
`shouldSetAttribute` is false or `shouldIgnoreValue` holds; otherwise it
returns the bare presence form `getAttributeName name ++ "=\x22\x22"` when
the expected value type is boolean, or when it is overloaded-boolean and
the value is strictly `true`; and otherwise the quoted form
`getAttributeName name ++ "=" ++ quote value`. -/
theorem createMarkupForProperty_spec (quote : JSValue → String)
    (props : Registry) (name : String) (value : JSValue) :
    createMarkupForProperty quote props name value =
      if shouldSetAttribute props name value = false ∨
          shouldIgnoreValue props name value = true then
        none
      else if getExpectedValueType props name = ExpectedValueType.boolean ∨
          (getExpectedValueType props name = ExpectedValueType.overloadedBoolean ∧
            value = JSValue.bool true) then
        some (getAttributeName name ++ "=\"\"")
      else
        some (getAttributeName name ++ "=" ++ quote value) := by
  unfold createMarkupForProperty
  cases hs : shouldSetAttribute props name value
  · simp [hs]
  · cases hi : shouldIgnoreValue props name value
    · by_cases hb : getExpectedValueType props name = ExpectedValueType.boolean ∨
          (getExpectedValueType props name = ExpectedValueType.overloadedBoolean ∧
            value = JSValue.bool true)
      · have hbb : (getExpectedValueType props name == ExpectedValueType.boolean ||
            (getExpectedValueType props name == ExpectedValueType.overloadedBoolean &&
              value == JSValue.bool true)) = true := by
          rcases hb with h1 | ⟨h1, h2⟩
          · simp [h1]
          · simp [h1, h2]
        simp [hs, hi, hbb, hb]
      · have hbb : (getExpectedValueType props name == ExpectedValueType.boolean ||
            (getExpectedValueType props name == ExpectedValueType.overloadedBoolean &&
              value == JSValue.bool true)) = false := by
          cases hcond : (getExpectedValueType props name == ExpectedValueType.boolean ||
              (getExpectedValueType props name == ExpectedValueType.overloadedBoolean &&
                value == JSValue.bool true))
          · rfl
          · exact absurd (by simpa using hcond) hb
        simp [hs, hi, hbb, hb]
    · simp [hs, hi]

/-- C2: every markup-generation call yields a defined result; failure is
expressed as the sentinel return (`none` for `createMarkupForProperty`, the
empty string for `createMarkupForCustomAttribute`), never as an exception:
the operations are total functions of the embedding. -/
theorem markupGeneration_no_exception (quote : JSValue → String)
    (props : Registry) (caches : NameCaches) (name : String)
    (value idValue : JSValue) :
    (∃ s : String, createMarkupForID quote idValue = s) ∧
    (∃ s : String, createMarkupForRoot = s) ∧
    (createMarkupForProperty quote props name value = none ∨
      ∃ s, createMarkupForProperty quote props name value = some s) ∧
    (∃ r : String × NameCaches,
      createMarkupForCustomAttribute quote caches name value = r) ∧
    (shouldSetAttribute props name value = false →
      createMarkupForProperty quote props name value = none) ∧
    ((isAttributeNameSafe caches name).1 = false →
      (createMarkupForCustomAttribute quote caches name value).1 = "") := by
  refine ⟨⟨_, rfl⟩, ⟨_, rfl⟩, ?_, ⟨_, rfl⟩, ?_, ?_⟩
  · cases hr : createMarkupForProperty quote props name value
    · exact Or.inl rfl
    · exact Or.inr ⟨_, rfl⟩
  · intro h
    simp [createMarkupForProperty, h]
  · intro h
    simp [createMarkupForCustomAttribute, h]

/-- Witness for C2: the reserved name `style` degrades to the `none`
sentinel and an illegally-cached name degrades to the empty string. -/
theorem markupGeneration_no_exception_witness :
    createMarkupForProperty quoteModel [] "style" (JSValue.str "x") = none ∧
    (createMarkupForCustomAttribute quoteModel ⟨[], ["1bad"]⟩ "1bad"
      (JSValue.str "x")).1 = "" :=
  ⟨(markupGeneration_no_exception quoteModel [] ⟨[], ["1bad"]⟩ "style"
      (JSValue.str "x") JSValue.null).2.2.2.2.1 (by decide),
    (markupGeneration_no_exception quoteModel [] ⟨[], ["1bad"]⟩ "1bad"
      (JSValue.str "x") JSValue.null).2.2.2.2.2 (by decide)⟩

theorem contains_cons_elim {l : List String} {a n : String}
    (h : (a :: l).contains n = true) : n = a ∨ l.contains n = true := by
  simp at h ⊢
  exact h

theorem contains_cons_of (l : List String) (a n : String)
    (h : l.contains n = true) : (a :: l).contains n = true := by
  simp at h ⊢
  exact Or.inr h

/-- C7: `isAttributeNameSafe` is idempotent and cache-consistent.  From any
well-formed cache state, the verdict equals the regular-expression test of
the name; the resulting cache state is well-formed, contains the name, and
retains every previously cached name; and when the name is already cached
the regular-expression test is not reached and the cache is unchanged, so
the test runs at most once per distinct name over any call sequence. -/
theorem isAttributeNameSafe_spec (caches : NameCaches) (name : String)
    (h : CachesWF caches) :
    (isAttributeNameSafe caches name).1 = testValidAttributeNameRegex name ∧
    CachesWF (isAttributeNameSafe caches name).2 ∧
    ((isAttributeNameSafe caches name).2.validated.contains name ||
      (isAttributeNameSafe caches name).2.illegal.contains name) = true ∧
    (∀ n, caches.validated.contains n = true →
      (isAttributeNameSafe caches name).2.validated.contains n = true) ∧
    (∀ n, caches.illegal.contains n = true →
      (isAttributeNameSafe caches name).2.illegal.contains n = true) ∧
    (regexTestRuns caches name = false →
      isAttributeNameSafe caches name =
        (testValidAttributeNameRegex name, caches)) := by
  rcases isAttributeNameSafe_cases caches name with
    ⟨hv, heq⟩ | ⟨hv, hi, heq⟩ | ⟨hv, hi, heq⟩
  · rw [heq]
    refine ⟨(h.1 name hv).symm, h, ?_, fun n hn => hn, fun n hn => hn,
      fun _ => ?_⟩
    · have hv2 := hv
      simp at hv2 ⊢
      exact Or.inl hv2
    · rw [h.1 name hv]
  · rw [heq]
    refine ⟨(h.2 name hi).symm, h, ?_, fun n hn => hn, fun n hn => hn,
      fun _ => ?_⟩
    · have hi2 := hi
      simp at hi2 ⊢
      exact Or.inr hi2
    · rw [h.2 name hi]
  · rw [heq]
    cases ht : testValidAttributeNameRegex name
    · simp only [Bool.false_eq_true, if_false]
      refine ⟨by trivial, ⟨h.1, ?_⟩, ?_, fun n hn => hn, fun n hn => ?_,
        fun hrun => ?_⟩
      · intro n hn
        rcases contains_cons_elim hn with rfl | hn2
        · exact ht
        · exact h.2 n hn2
      · simp
      · exact contains_cons_of _ _ _ hn
      · exfalso
        unfold regexTestRuns at hrun
        rw [hv, hi] at hrun
        simp at hrun
    · simp only [if_true]
      refine ⟨by trivial, ⟨?_, h.2⟩, ?_, fun n hn => ?_, fun n hn => hn,
        fun hrun => ?_⟩
      · intro n hn
        rcases contains_cons_elim hn with rfl | hn2
        · exact ht
        · exact h.1 n hn2
      · simp
      · exact contains_cons_of _ _ _ hn
      · exfalso
        unfold regexTestRuns at hrun
        rw [hv, hi] at hrun
        simp at hrun

/-- Witness for C7: starting from the empty (well-formed) cache state, the
verdict for `data-foo` is the regular-expression test of `data-foo`. -/
theorem isAttributeNameSafe_spec_witness :
    (isAttributeNameSafe ⟨[], []⟩ "data-foo").1 =
      testValidAttributeNameRegex "data-foo" :=
  (isAttributeNameSafe_spec ⟨[], []⟩ "data-foo"
    ⟨fun n hn => by simp at hn, fun n hn => by simp at hn⟩).1

/-- C9: `createMarkupForCustomAttribute` returns the empty string whenever
the name is unsafe or the value is null/undefined; otherwise it emits
`name ++ "=" ++ quote value` with no semantic-name resolution; in
particular `data-x` with `null` yields the empty string, and with the
string `v` (quoted as `"v"` by the collaborator) yields `data-x="v"`. -/
theorem createMarkupForCustomAttribute_spec (quote : JSValue → String)
    (caches : NameCaches) (name : String) (value : JSValue)
    (h : CachesWF caches) :
    ((isAttributeNameSafe caches name).1 = false ∨ value = JSValue.null ∨
        value = JSValue.undef →
      (createMarkupForCustomAttribute quote caches name value).1 = "") ∧
    ((isAttributeNameSafe caches name).1 = true → value ≠ JSValue.null →
      value ≠ JSValue.undef →
      (createMarkupForCustomAttribute quote caches name value).1 =
        name ++ "=" ++ quote value) ∧
    (createMarkupForCustomAttribute quote caches "data-x" JSValue.null).1 = "" ∧
    (quote (JSValue.str "v") = "\"v\"" →
      (createMarkupForCustomAttribute quote caches "data-x"
        (JSValue.str "v")).1 = "data-x=\"v\"") := by
  refine ⟨?_, ?_, ?_, ?_⟩
  · rintro (hf | rfl | rfl)
    · simp [createMarkupForCustomAttribute, hf]
    · simp [createMarkupForCustomAttribute]
    · simp [createMarkupForCustomAttribute]
  · intro ht hn hu
    have hn' : (value == JSValue.null) = false := by
      cases hvn : value == JSValue.null
      · rfl
      · exact absurd (by simpa using hvn) hn
    have hu' : (value == JSValue.undef) = false := by
      cases hvu : value == JSValue.undef
      · rfl
      · exact absurd (by simpa using hvu) hu
    simp [createMarkupForCustomAttribute, ht, hn', hu']
  · simp [createMarkupForCustomAttribute]
  · intro hq
    have hsafe : (isAttributeNameSafe caches "data-x").1 = true := by
      rw [isAttributeNameSafe_verdict caches "data-x" h]
      decide
    have he1 : (JSValue.str "v" == JSValue.null) = false := by decide
    have he2 : (JSValue.str "v" == JSValue.undef) = false := by decide
    have hres : (createMarkupForCustomAttribute quote caches "data-x"
        (JSValue.str "v")).1 = "data-x" ++ "=" ++ quote (JSValue.str "v") := by
      simp [createMarkupForCustomAttribute, hsafe, he1, he2]
    rw [hres, hq]
    rfl

/-- Witness for C9 with the concrete escaping collaborator `quoteModel`
and the empty (well-formed) cache state. -/
theorem createMarkupForCustomAttribute_spec_witness :
    (createMarkupForCustomAttribute quoteModel ⟨[], []⟩ "data-x"
      JSValue.null).1 = "" ∧
    (createMarkupForCustomAttribute quoteModel ⟨[], []⟩ "data-x"
      (JSValue.str "v")).1 = "data-x=\"v\"" :=
  ⟨(createMarkupForCustomAttribute_spec quoteModel ⟨[], []⟩ "data-x"
      JSValue.null
      ⟨fun n hn => by simp at hn, fun n hn => by simp at hn⟩).2.2.1,
    (createMarkupForCustomAttribute_spec quoteModel ⟨[], []⟩ "data-x"
      (JSValue.str "v")
      ⟨fun n hn => by simp at hn, fun n hn => by simp at hn⟩).2.2.2 rfl⟩

set_option maxRecDepth 10000

theorem hasKey_of_getPropertyInfo {props : Registry} {n : String}
    {info : PropertyInfo} (h : getPropertyInfo props n = some info) :
    hasKey props n = true := by
  unfold getPropertyInfo at h
  unfold hasKey
  rw [h]
  rfl

/-- C3 (amended): for configs with no internal duplicate names, pairwise
disjoint name sets also disjoint from the current registry, and bitmasks
that each set at most one of the three exclusive value modes, injecting
the first and then the second succeeds; a config that re-declares a name
already in the registry always fails with a configuration error, and the
error names that property when the preceding entries are valid and not
themselves re-declarations. -/
theorem injectDOMPropertyConfig_disjoint_spec :
    (∀ (props : Registry) (c1 c2 : List (String × Nat)),
      (c1.map Prod.fst).Nodup → (c2.map Prod.fst).Nodup →
      (∀ p ∈ c1, hasKey props p.1 = false) →
      (∀ p ∈ c2, hasKey props p.1 = false) →
      (∀ p ∈ c2, p.1 ∉ c1.map Prod.fst) →
      (∀ p ∈ c1, modeSum (decodePropConfig p.2) ≤ 1) →
      (∀ p ∈ c2, modeSum (decodePropConfig p.2) ≤ 1) →
      ∃ props1 props2, injectDOMPropertyConfig props c1 = Except.ok props1 ∧
        injectDOMPropertyConfig props1 c2 = Except.ok props2) ∧
    (∀ (props : Registry) (config : List (String × Nat)) (n : String),
      n ∈ config.map Prod.fst → hasKey props n = true →
      ∃ e, injectDOMPropertyConfig props config = Except.error e) ∧
    (∀ (props : Registry) (pre : List (String × Nat)) (n : String) (m : Nat)
        (rest : List (String × Nat)),
      (pre.map Prod.fst).Nodup →
      (∀ p ∈ pre, hasKey props p.1 = false ∧
        modeSum (decodePropConfig p.2) ≤ 1) →
      hasKey props n = true →
      injectDOMPropertyConfig props (pre ++ (n, m) :: rest) =
        Except.error (InjectError.duplicateProperty n)) := by
  refine ⟨?_,
    fun props config n hmem hkey => inject_error_of_dup config props n hmem hkey,
    fun props pre n m rest h1 h2 h3 =>
      inject_error_duplicate_first pre props n m rest h1 h2 h3⟩
  intro props c1 c2 hn1 hn2 hf1 hf2 hdisj hv1 hv2
  obtain ⟨props1, hok1, hchar⟩ := inject_ok_of_fresh c1 props hn1 hf1 hv1
  have hf2' : ∀ p ∈ c2, hasKey props1 p.1 = false := by
    intro p hp
    cases hkp : hasKey props1 p.1
    · rfl
    · exfalso
      rcases (hchar p.1).mp hkp with hcase | hcase
      · rw [hf2 p hp] at hcase
        exact Bool.noConfusion hcase
      · exact hdisj p hp hcase
  obtain ⟨props2, hok2, _⟩ := inject_ok_of_fresh c2 props1 hn2 hf2' hv2
  exact ⟨props1, props2, hok1, hok2⟩

/-- C3 counterexample: two single-entry configs with disjoint name sets for
which injection nevertheless fails: `autoReverse` collides with the
pre-populated module registry, and `badMix` (bitmask 0xC, boolean and
numeric together) violates the mode-exclusion invariant even on an empty
registry. -/
theorem injectDOMPropertyConfig_disjoint_counterexample :
    List.inter (([("autoReverse", 0)] : List (String × Nat)).map Prod.fst)
      (([("zeta", 0)] : List (String × Nat)).map Prod.fst) = [] ∧
    injectDOMPropertyConfig initialProperties [("autoReverse", 0)] =
      Except.error (InjectError.duplicateProperty "autoReverse") ∧
    List.inter (([("badMix", 12)] : List (String × Nat)).map Prod.fst)
      (([("zeta", 0)] : List (String × Nat)).map Prod.fst) = [] ∧
    injectDOMPropertyConfig [] [("badMix", 12)] =
      Except.error (InjectError.conflictingValueModes "badMix") :=
  ⟨by decide, by rfl, by decide, by rfl⟩

/-- Witness for C3 at concrete disjoint configs, and at a config whose
second entry re-declares the registered name `autoReverse`. -/
theorem injectDOMPropertyConfig_disjoint_spec_witness :
    (injectDOMPropertyConfig [] [("alpha", 4)]).isOk = true ∧
    (injectDOMPropertyConfig
      ((injectDOMPropertyConfig [] [("alpha", 4)]).toOption.getD [])
      [("beta", 8)]).isOk = true ∧
    injectDOMPropertyConfig initialProperties
        ([("fresh1", 4)] ++ ("autoReverse", 0) :: []) =
      Except.error (InjectError.duplicateProperty "autoReverse") := by
  obtain ⟨props1, props2, h1, h2⟩ :=
    injectDOMPropertyConfig_disjoint_spec.1 [] [("alpha", 4)] [("beta", 8)]
      (by decide) (by decide) (by decide) (by decide) (by decide) (by decide)
      (by decide)
  refine ⟨by rw [h1]; rfl, ?_, ?_⟩
  · rw [h1]
    show (injectDOMPropertyConfig props1 [("beta", 8)]).isOk = true
    rw [h2]
    rfl
  · exact injectDOMPropertyConfig_disjoint_spec.2.2 initialProperties
      [("fresh1", 4)] "autoReverse" 0 [] (by decide) (by decide) (by decide)

/-- C4: a config entry whose bitmask sets more than one of the boolean,
numeric and overloaded-boolean modes always makes injection fail with a
configuration error; injection preserves the invariant that every stored
descriptor has at most one of the three facets set; and the initial
registry satisfies the invariant. -/
theorem injectDOMPropertyConfig_mode_exclusive :
    (∀ (props : Registry) (config : List (String × Nat)) (p : String × Nat),
      p ∈ config → 2 ≤ modeSum (decodePropConfig p.2) →
      ∃ e, injectDOMPropertyConfig props config = Except.error e) ∧
    (∀ (props props2 : Registry) (config : List (String × Nat)),
      injectDOMPropertyConfig props config = Except.ok props2 →
      (∀ q ∈ props, modeSum q.2 ≤ 1) →
      ∀ q ∈ props2, modeSum q.2 ≤ 1) ∧
    (∀ q ∈ initialProperties, modeSum q.2 ≤ 1) :=
  ⟨fun props config p hmem hmix => inject_error_of_mixed config props p hmem hmix,
    fun props props2 config hok hall => inject_ok_modes config props props2 hok hall,
    by decide⟩

/-- Witness for C4 at the concrete config entry `mixy` with bitmask 0xC
(boolean and numeric modes combined). -/
theorem injectDOMPropertyConfig_mode_exclusive_witness :
    (injectDOMPropertyConfig [] [("mixy", 12)]).isOk = false := by
  obtain ⟨e, he⟩ := injectDOMPropertyConfig_mode_exclusive.1 []
    [("mixy", 12)] ("mixy", 12) (by decide) (by decide)
  rw [he]
  rfl

theorem initial_lookup_autoReverse :
    getPropertyInfo initialProperties "autoReverse" = some stringBooleanInfo := by
  decide

theorem initial_lookup_externalResourcesRequired :
    getPropertyInfo initialProperties "externalResourcesRequired" =
      some stringBooleanInfo := by
  decide

theorem initial_lookup_preserveAlpha :
    getPropertyInfo initialProperties "preserveAlpha" =
      some stringBooleanInfo := by
  decide

theorem initial_lookup_svg :
    ∀ a ∈ svgAttributeList,
      getPropertyInfo initialProperties (camelize a) = some plainInfo := by
  decide

/-- C10: at module initialisation the registry is already populated by the
built-in SVG config: `getPropertyInfo` returns the string-boolean
descriptor for `autoReverse`, `externalResourcesRequired` and
`preserveAlpha`, the all-false descriptor for every camelised name of the
built-in SVG attribute list, and injecting any config that defines one of
these names fails with a configuration error. -/
theorem initialProperties_spec :
    getPropertyInfo initialProperties "autoReverse" = some stringBooleanInfo ∧
    getPropertyInfo initialProperties "externalResourcesRequired" =
      some stringBooleanInfo ∧
    getPropertyInfo initialProperties "preserveAlpha" =
      some stringBooleanInfo ∧
    (∀ a ∈ svgAttributeList,
      getPropertyInfo initialProperties (camelize a) = some plainInfo) ∧
    (∀ (config : List (String × Nat)) (n : String), n ∈ config.map Prod.fst →
      (n = "autoReverse" ∨ n = "externalResourcesRequired" ∨
        n = "preserveAlpha" ∨ ∃ a ∈ svgAttributeList, n = camelize a) →
      ∃ e, injectDOMPropertyConfig initialProperties config =
        Except.error e) := by
  refine ⟨initial_lookup_autoReverse, initial_lookup_externalResourcesRequired,
    initial_lookup_preserveAlpha, initial_lookup_svg, ?_⟩
  intro config n hmem hname
  have hkey : hasKey initialProperties n = true := by
    rcases hname with rfl | rfl | rfl | ⟨a, ha, rfl⟩
    · exact hasKey_of_getPropertyInfo initial_lookup_autoReverse
    · exact hasKey_of_getPropertyInfo initial_lookup_externalResourcesRequired
    · exact hasKey_of_getPropertyInfo initial_lookup_preserveAlpha
    · exact hasKey_of_getPropertyInfo (initial_lookup_svg a ha)
  exact inject_error_of_dup config initialProperties n hmem hkey

/-- Witness for C10 at the camelised SVG names `strokeWidth` and
`xlinkHref`. -/
theorem initialProperties_spec_witness :
    getPropertyInfo initialProperties (camelize "stroke-width") =
      some plainInfo ∧
    (injectDOMPropertyConfig initialProperties [("xlinkHref", 0)]).isOk =
      false := by
  refine ⟨initialProperties_spec.2.2.2.1 "stroke-width" (by decide), ?_⟩
  obtain ⟨e, he⟩ := initialProperties_spec.2.2.2.2 [("xlinkHref", 0)]
    "xlinkHref" (by decide)
    (Or.inr (Or.inr (Or.inr ⟨"xlink:href", by decide, by decide⟩)))
  rw [he]
  rfl
